import Mathlib

/-!
Verification of the video-analysis cloud-function handler (main.py).

The Python source is shallowly embedded: pure data shaping becomes Lean
functions; calls to the external Video Intelligence and BigQuery services
become parameters describing the service's behaviour, and the handler's
observable actions (service calls and log lines) are recorded as an explicit
event trace.  Confidence scores and time offsets are modelled as rationals.
Python's `str.split(sep)` for a one-character separator is modelled by
`splitChar` below.
-/

/-! ### Data model: annotation results (google.cloud.videointelligence) -/

/-- A time segment of a video: start and end offsets in seconds
(`segment.start_time_offset.total_seconds()` / `end_time_offset`). -/
structure VideoSegment where
  startTime : ℚ
  endTime : ℚ
  deriving DecidableEq, Repr

/-- One detected segment of a label annotation, with its confidence. -/
structure LabelSegment where
  segment : VideoSegment
  confidence : ℚ
  deriving DecidableEq, Repr

/-- An entity (`vi.Entity`): only the description is used by the program. -/
structure Entity where
  description : String
  deriving DecidableEq, Repr

/-- A segment label (source type `vi.LabelAnnotation`): entity,
category entities, and one or more segments.  Python indexes
`label.segments[0]`, which raises on an empty list; the claims below are
stated under the corresponding non-emptiness hypotheses. -/
structure LabelAnn where
  entity : Entity
  category_entities : List Entity
  segments : List LabelSegment
  deriving DecidableEq, Repr

/-- One speech-transcription hypothesis (`vi.SpeechRecognitionAlternative`). -/
structure SpeechAlternative where
  transcript : String
  confidence : ℚ
  deriving DecidableEq, Repr

/-- A speech transcription (`vi.SpeechTranscription`): candidate alternatives,
best first.  Python indexes `alternatives[0]`, which raises on empty. -/
structure SpeechTranscription where
  alternatives : List SpeechAlternative
  deriving DecidableEq, Repr

/-- One per-feature-family result object (`vi.VideoAnnotationResults`).
Only the two fields read by the program are modelled. -/
structure VideoAnnotationResults where
  segment_label_annotations : List LabelAnn
  speech_transcriptions : List SpeechTranscription
  deriving DecidableEq, Repr

/-! ### Python `str.split` with a one-character separator -/

/-- Model of Python's `s.split(sep)`: `splitChar sep cs` is Python's `s.split(sep)` on the character list of
`s`, for a one-character separator: split at every occurrence of `sep`,
keeping empty pieces.  Always returns at least one piece. -/
def splitChar (sep : Char) : List Char → List (List Char)
  | [] => [[]]
  | c :: cs =>
    if c = sep then [] :: splitChar sep cs
    else (c :: (splitChar sep cs).headD []) :: (splitChar sep cs).tail

/-- Python `s.split(sep)` for a one-character separator, on `String`. -/
def pySplit (s : String) (sep : Char) : List String :=
  (splitChar sep s.data).map String.mk

theorem splitChar_ne_nil (sep : Char) : ∀ l : List Char, splitChar sep l ≠ []
  | [] => by simp [splitChar]
  | c :: cs => by
    simp only [splitChar]
    split <;> simp

/-- Splitting a list with no occurrence of the separator yields the list
itself as the single piece. -/
theorem splitChar_no_sep (sep : Char) :
    ∀ l : List Char, sep ∉ l → splitChar sep l = [l]
  | [], _ => rfl
  | c :: cs, h => by
    have hc : ¬ c = sep := fun he => h (he ▸ List.mem_cons_self c cs)
    have ih := splitChar_no_sep sep cs (fun hm => h (List.mem_cons_of_mem c hm))
    simp [splitChar, hc, ih]

/-- Splitting `l₁ ++ sep :: l₂` where `l₁` is separator-free peels off `l₁`
as the first piece. -/
theorem splitChar_append (sep : Char) :
    ∀ l₁ l₂ : List Char, sep ∉ l₁ →
      splitChar sep (l₁ ++ sep :: l₂) = l₁ :: splitChar sep l₂
  | [], l₂, _ => by simp [splitChar]
  | c :: l₁, l₂, h => by
    have hc : ¬ c = sep := fun he => h (he ▸ List.mem_cons_self c l₁)
    have ih := splitChar_append sep l₁ l₂ (fun hm => h (List.mem_cons_of_mem c hm))
    simp [splitChar, hc, ih]

/-- An input containing the separator splits into at least two pieces. -/
theorem splitChar_length_two (sep : Char) :
    ∀ l₁ l₂ : List Char, 2 ≤ (splitChar sep (l₁ ++ sep :: l₂)).length
  | [], l₂ => by
    have h := List.length_pos.mpr (splitChar_ne_nil sep l₂)
    rw [List.nil_append,
      show splitChar sep (sep :: l₂) = [] :: splitChar sep l₂ by
        simp [splitChar]]
    simp only [List.length_cons]
    omega
  | c :: l₁, l₂ => by
    have ih := splitChar_length_two sep l₁ l₂
    have hne := splitChar_ne_nil sep (l₁ ++ sep :: l₂)
    simp only [List.cons_append, splitChar, List.append_eq]
    split
    · simp only [List.length_cons]; omega
    · simp only [List.length_cons, List.length_tail]
      have := List.length_pos.mpr hne
      omega

/-- The function `getLastD` skips a cons when the tail is non-empty. -/
theorem getLastD_cons_ne {α : Type} (a : α) {l : List α} (h : l ≠ []) (d : α) :
    (a :: l).getLastD d = l.getLastD d := by
  cases l with
  | nil => exact absurd rfl h
  | cons b t => rfl

/-- The function `getLastD` of a non-empty list ignores the default. -/
theorem getLastD_irrel {α : Type} {l : List α} (h : l ≠ []) (d d' : α) :
    l.getLastD d = l.getLastD d' := by
  cases l with
  | nil => exact absurd rfl h
  | cons b t => rfl

/-- The last piece of a split of `l₁ ++ sep :: l₂`, for separator-free `l₂`,
is `l₂`, whatever the default. -/
theorem splitChar_getLastD (sep : Char) :
    ∀ l₁ l₂ : List Char, sep ∉ l₂ → ∀ d : List Char,
      (splitChar sep (l₁ ++ sep :: l₂)).getLastD d = l₂
  | [], l₂, h2, d => by
    rw [List.nil_append,
      show splitChar sep (sep :: l₂) = [] :: splitChar sep l₂ by
        simp [splitChar],
      splitChar_no_sep sep l₂ h2]
    rfl
  | c :: l₁, l₂, h2, d => by
    have ih := splitChar_getLastD sep l₁ l₂ h2
    have hlen := splitChar_length_two sep l₁ l₂
    have hne := splitChar_ne_nil sep (l₁ ++ sep :: l₂)
    simp only [List.cons_append, splitChar, List.append_eq]
    split
    · rw [getLastD_cons_ne _ hne d]; exact ih d
    · cases hrest : splitChar sep (l₁ ++ sep :: l₂) with
      | nil => exact absurd hrest hne
      | cons r rs =>
        rw [hrest] at ih hlen
        cases rs with
        | nil => simp at hlen
        | cons y ys =>
          have htl : (y :: ys : List (List Char)) ≠ [] := by simp
          rw [List.headD_cons, List.tail_cons, getLastD_cons_ne _ htl d]
          have hih := ih d
          rw [getLastD_cons_ne r htl d] at hih
          exact hih

/-! ### Request builder (`analyze_video`, pure part) -/

/-- The fixed output bucket constant `OUTPUT_BUCKET` of main.py. -/
def OUTPUT_BUCKET : String := "gs://outputbucket-cloud9"

/-- The storage-change event delivered to the handler: `event["bucket"]`
and `event["name"]`. -/
structure StorageEvent where
  bucket : String
  name : String
  deriving DecidableEq, Repr

/-- Source line `input_uri = "gs://" + event["bucket"] + "/" + event["name"]`. -/
def input_uri (event : StorageEvent) : String :=
  "gs://" ++ event.bucket ++ "/" ++ event.name

/-- Source line with `file_stem = event["name"].split(".")[0]`.  Python's index `[0]` is
total here because `split` always returns a non-empty list. -/
def file_stem (event : StorageEvent) : String :=
  (pySplit event.name '.').headD ""

/-- Source line `output_uri = f"(OUTPUT_BUCKET)/(file_stem).json"` (an f-string in the source). -/
def output_uri (event : StorageEvent) : String :=
  OUTPUT_BUCKET ++ "/" ++ file_stem event ++ ".json"

/-- The request assembled by `analyze_video`.  The feature list, speech,
person and face configurations are fixed module constants never read
elsewhere, so only the two derived URIs are carried. -/
structure AnalysisRequest where
  input_uri : String
  output_uri : String
  deriving DecidableEq, Repr

/-- C1: for every event whose object name contains a dot, the request
builder yields `input_uri = "gs://" ++ bucket ++ "/" ++ name`, takes the
stem as the part of the name before the first dot, and yields
`output_uri = "gs://outputbucket-cloud9/" ++ stem ++ ".json"`. -/
theorem c1_request_builder (event : StorageEvent) (pre suf : String)
    (hname : event.name = pre ++ "." ++ suf) (hpre : '.' ∉ pre.data) :
    input_uri event = "gs://" ++ event.bucket ++ "/" ++ event.name ∧
    file_stem event = pre ∧
    output_uri event = "gs://outputbucket-cloud9/" ++ pre ++ ".json" := by
  have hdata : event.name.data = pre.data ++ '.' :: suf.data := by
    rw [hname]
    simp [String.data_append]
  have hstem : file_stem event = pre := by
    unfold file_stem pySplit
    rw [hdata, splitChar_append '.' pre.data suf.data hpre]
    simp
  refine ⟨rfl, hstem, ?_⟩
  unfold output_uri
  rw [hstem]
  rfl

/-- Witness for C1 at the spec's scenario event: bucket `b`, object name
`clip.mp4`. -/
theorem c1_request_builder_witness :
    input_uri ⟨"b", "clip.mp4"⟩ = "gs://b/clip.mp4" ∧
    file_stem ⟨"b", "clip.mp4"⟩ = "clip" ∧
    output_uri ⟨"b", "clip.mp4"⟩ = "gs://outputbucket-cloud9/clip.json" := by
  have h := c1_request_builder ⟨"b", "clip.mp4"⟩ "clip" "mp4" rfl (by decide)
  exact ⟨h.1.trans rfl, h.2.1, h.2.2.trans rfl⟩

/-! ### Presentation formatter (`print_video_labels`, `print_video_speech`) -/

/-- Placeholder segment used to express Python's `label.segments[0]`; the
claims are only stated for annotations with at least one segment, where the
placeholder is never reached. -/
def dfltSegment : LabelSegment := ⟨⟨0, 0⟩, 0⟩

/-- The sort key of `sorted_by_first_segment_confidence`:
`label.segments[0].confidence`. -/
def firstSegConf (label : LabelAnn) : ℚ :=
  (label.segments.headD dfltSegment).confidence

/-- The ordering used by the label report: `a` before `b` when `a`'s
first-segment confidence is at least `b`'s (Python
`sorted(key=..., reverse=True)` is a stable descending sort). -/
def labelGE (a b : LabelAnn) : Prop := firstSegConf b ≤ firstSegConf a

instance : DecidableRel labelGE := fun a b =>
  inferInstanceAs (Decidable (firstSegConf b ≤ firstSegConf a))

instance : IsTotal LabelAnn labelGE :=
  ⟨fun a b => le_total (firstSegConf b) (firstSegConf a)⟩

instance : IsTrans LabelAnn labelGE :=
  ⟨fun _ _ _ hab hbc => le_trans hbc hab⟩

/-- Source line `sorted(labels, key=lambda label: label.segments[0].confidence,
reverse=True)`: a stable descending sort, modelled by insertion sort, which
is extensionally the unique stable sort for a total preorder. -/
def sorted_by_first_segment_confidence (labels : List LabelAnn) : List LabelAnn :=
  labels.insertionSort labelGE

/-- Function `category_entities_to_str`: empty string for no categories, otherwise
the comma-joined descriptions in parentheses. -/
def category_entities_to_str (category_entities : List Entity) : String :=
  if category_entities = [] then ""
  else " (" ++ String.intercalate ", " (category_entities.map Entity.description) ++ ")"

/-- One line of the label report: confidence, start offset, end offset, and
the entity description followed by the category suffix. -/
structure LabelLine where
  confidence : ℚ
  t1 : ℚ
  t2 : ℚ
  text : String
  deriving DecidableEq, Repr

/-- The line `print_video_labels` emits for one segment of one label. -/
def labelLineOf (label : LabelAnn) (seg : LabelSegment) : LabelLine :=
  ⟨seg.confidence, seg.segment.startTime, seg.segment.endTime,
    label.entity.description ++ category_entities_to_str label.category_entities⟩

/-- Function `print_video_labels`: sort the labels, then one line per segment in the
label's original segment order. -/
def print_video_labels (results : VideoAnnotationResults) : List LabelLine :=
  (sorted_by_first_segment_confidence results.segment_label_annotations).flatMap
    fun label => label.segments.map (labelLineOf label)

/-- Python `str.strip()` with no argument: remove leading and trailing
whitespace. -/
def pyStrip (s : String) : String :=
  String.mk (((s.data.dropWhile Char.isWhitespace).reverse.dropWhile
    Char.isWhitespace).reverse)

/-- Placeholder alternative expressing Python's `alternatives[0]`; claims
are stated under non-emptiness, where it is never reached. -/
def dfltAlternative : SpeechAlternative := ⟨"", 0⟩

/-- The filter of `print_video_speech`:
`min_confidence <= transcription.alternatives[0].confidence`. -/
def keep_transcription (min_confidence : ℚ) (transcription : SpeechTranscription) : Bool :=
  min_confidence ≤ (transcription.alternatives.headD dfltAlternative).confidence

/-- Function `print_video_speech`: one line (confidence, stripped transcript of the
first alternative) per transcription passing the filter.  The Python
parameter `min_confidence` defaults to `0.8`; callers here pass it
explicitly. -/
def print_video_speech (results : VideoAnnotationResults) (min_confidence : ℚ) :
    List (ℚ × String) :=
  (results.speech_transcriptions.filter (keep_transcription min_confidence)).map
    fun transcription =>
      ((transcription.alternatives.headD dfltAlternative).confidence,
       pyStrip (transcription.alternatives.headD dfltAlternative).transcript)

/-! ### Result projector: row preparation (`store_results_in_bigquery`) -/

/-- A row of the `annotation_labels` table. -/
structure LabelRow where
  file_name : String
  label : String
  confidence : ℚ
  start_time : ℚ
  end_time : ℚ
  file_uri : String
  deriving DecidableEq, Repr

/-- A row of the `annotation_transcripts` table. -/
structure TranscriptRow where
  file_name : String
  transcript : String
  confidence : ℚ
  deriving DecidableEq, Repr

/-- Source line `file_name = video_uri.split('/')[-1]`: the last `/`-separated piece. -/
def file_name_of (video_uri : String) : String :=
  (pySplit video_uri '/').getLastD ""

/-- The label row built for one segment of one label annotation. -/
def mkLabelRow (video_uri : String) (ann : LabelAnn) (seg : LabelSegment) : LabelRow :=
  ⟨file_name_of video_uri, ann.entity.description, seg.confidence,
    seg.segment.startTime, seg.segment.endTime, video_uri⟩

/-- The list `rows_to_insert_labels`: one row per (label annotation, segment) pair,
in the nested loop order of the source. -/
def labelRowsFor (video_uri : String) (results_labels : VideoAnnotationResults) :
    List LabelRow :=
  results_labels.segment_label_annotations.flatMap
    fun ann => ann.segments.map (mkLabelRow video_uri ann)

/-- The transcript row built from a transcription's first alternative. -/
def mkTranscriptRow (video_uri : String) (alt : SpeechAlternative) : TranscriptRow :=
  ⟨file_name_of video_uri, alt.transcript, alt.confidence⟩

/-- The list `rows_to_insert_transcript`: one row per transcription, from
`transcription.alternatives[0]`; `none` models the `IndexError` Python
raises when some transcription has no alternatives. -/
def transcriptRowsFor (video_uri : String) :
    List SpeechTranscription → Option (List TranscriptRow)
  | [] => some []
  | t :: rest =>
    match t.alternatives with
    | [] => none
    | alt :: _ =>
      match transcriptRowsFor video_uri rest with
      | none => none
      | some rows => some (mkTranscriptRow video_uri alt :: rows)

/-! ### Analytic-store effects and the orchestrator -/

/-- The two fixed tables (`TABLE_ID_LABELS`, `TABLE_ID_TRANSCRIPT`). -/
inductive Table where
  | labels
  | transcript
  deriving DecidableEq, Repr

/-- Outcome of `client.get_table`: success, the distinguished `NotFound`
exception, or any other exception (which the provisioner does not catch). -/
inductive GetResult where
  | found
  | notFound
  | otherError (e : String)
  deriving DecidableEq, Repr

/-- Payload of a row-append call. -/
inductive Rows where
  | labelRows (rs : List LabelRow)
  | transcriptRows (rs : List TranscriptRow)
  deriving DecidableEq, Repr

/-- Observable actions of the handler: log lines and external calls. -/
inductive Ev where
  | printEvent
  | printProcessing (uri : String)
  | annotateCall (req : AnalysisRequest)
  | labelsReport (lines : List LabelLine)
  | speechReport (lines : List (ℚ × String))
  | getCall (t : Table)
  | createCall (t : Table)
  | logExists (t : Table)
  | logCreated (t : Table)
  | appendCall (rs : Rows)
  | logRowsAdded (t : Table)
  | logRowErrors (t : Table) (errs : List String)
  | logStoreError (e : String)
  deriving DecidableEq, Repr

/-- One `try: get_table ... except NotFound: create_table` block of
`create_bigquery_tables`: fetch the table's metadata; on success log
"already exists"; on `NotFound` create it and log creation; any other
fetch error escapes the block. -/
def provisionTable (get : Table → GetResult) (t : Table) :
    List Ev × Except String Unit :=
  match get t with
  | GetResult.found => ([Ev.getCall t, Ev.logExists t], Except.ok ())
  | GetResult.notFound =>
      ([Ev.getCall t, Ev.createCall t, Ev.logCreated t], Except.ok ())
  | GetResult.otherError e => ([Ev.getCall t], Except.error e)

/-- Function `create_bigquery_tables`: provision the labels table, then the
transcript table; an uncaught fetch error aborts the whole function. -/
def create_bigquery_tables (get : Table → GetResult) :
    List Ev × Except String Unit :=
  match provisionTable get Table.labels with
  | (ev1, Except.error e) => (ev1, Except.error e)
  | (ev1, Except.ok _) =>
    match provisionTable get Table.transcript with
    | (ev2, r2) => (ev1 ++ ev2, r2)

/-- The log line following an `insert_rows_json` that returned `errs`:
success when the error list is empty, the row-error message otherwise. -/
def appendLogEv (t : Table) (errs : List String) : Ev :=
  if errs = [] then Ev.logRowsAdded t else Ev.logRowErrors t errs

/-- Function `store_results_in_bigquery`: build both row sets, then, inside a single
`try ... except GoogleCloudError` block, append the label rows, log the
outcome, append the transcript rows, log the outcome.  `insert rs` is the
store's `insert_rows_json`: `Except.ok errs` is a returned row-level error
list (empty = success) and `Except.error e` a raised `GoogleCloudError`,
which jumps to the handler, skipping the rest of the block.  The result is
`none` when row preparation raises `IndexError` (a transcription with no
alternatives); otherwise the trace of calls and log lines. -/
def store_results_in_bigquery (insert : Rows → Except String (List String))
    (video_uri : String) (results_labels results_transcript : VideoAnnotationResults) :
    Option (List Ev) :=
  let rows_to_insert_labels := labelRowsFor video_uri results_labels
  match transcriptRowsFor video_uri results_transcript.speech_transcriptions with
  | none => none
  | some rows_to_insert_transcript =>
    some
      (match insert (Rows.labelRows rows_to_insert_labels) with
      | Except.error e =>
          [Ev.appendCall (Rows.labelRows rows_to_insert_labels), Ev.logStoreError e]
      | Except.ok errsL =>
          Ev.appendCall (Rows.labelRows rows_to_insert_labels) ::
            appendLogEv Table.labels errsL ::
            match insert (Rows.transcriptRows rows_to_insert_transcript) with
            | Except.error e =>
                [Ev.appendCall (Rows.transcriptRows rows_to_insert_transcript),
                  Ev.logStoreError e]
            | Except.ok errsT =>
                [Ev.appendCall (Rows.transcriptRows rows_to_insert_transcript),
                  appendLogEv Table.transcript errsT])

/-- Behaviour of the two external services during one invocation:
the annotation call, the table-metadata fetch, and the row append. -/
structure Env where
  annotate : AnalysisRequest → Except String (List VideoAnnotationResults)
  getTable : Table → GetResult
  insert : Rows → Except String (List String)

/-- An exception escaping the handler to its caller. -/
inductive PyErr where
  | annotationError (e : String)
  | provisioningError (e : String)
  | indexError
  deriving DecidableEq, Repr

/-- Function `analyze_video`: print the event, build the request, print the
processing line, call the annotation service and block for its result. -/
def analyze_video (env : Env) (event : StorageEvent) :
    List Ev × Except String (List VideoAnnotationResults) :=
  let req : AnalysisRequest := ⟨input_uri event, output_uri event⟩
  ([Ev.printEvent, Ev.printProcessing (input_uri event), Ev.annotateCall req],
    env.annotate req)

/-- Function `process_video`: the orchestrator.  Annotation failure propagates with
nothing further done; then the two reports are printed from
`results[0]` / `results[1]` (an out-of-range index raises), the tables are
provisioned (an uncaught fetch error propagates), and the rows are
appended (store-level append errors are swallowed by
`store_results_in_bigquery`). -/
def process_video (env : Env) (event : StorageEvent) :
    List Ev × Except PyErr Unit :=
  match analyze_video env event with
  | (evA, Except.error e) => (evA, Except.error (PyErr.annotationError e))
  | (evA, Except.ok results) =>
    match results[0]? with
    | none => (evA, Except.error PyErr.indexError)
    | some r0 =>
      let evL := Ev.labelsReport (print_video_labels r0)
      match results[1]? with
      | none => (evA ++ [evL], Except.error PyErr.indexError)
      | some r1 =>
        let evS := Ev.speechReport (print_video_speech r1 (8/10))
        match create_bigquery_tables env.getTable with
        | (evP, Except.error e) =>
            (evA ++ [evL, evS] ++ evP, Except.error (PyErr.provisioningError e))
        | (evP, Except.ok _) =>
          match store_results_in_bigquery env.insert (input_uri event) r0 r1 with
          | none => (evA ++ [evL, evS] ++ evP, Except.error PyErr.indexError)
          | some evSt => (evA ++ [evL, evS] ++ evP ++ evSt, Except.ok ())

/-! ### Helper lemmas -/

/-- When every transcription has at least one alternative, row preparation
succeeds and yields exactly one row per transcription, built from the first
alternative. -/
theorem transcriptRowsFor_eq (video_uri : String) :
    ∀ ts : List SpeechTranscription, (∀ t ∈ ts, t.alternatives ≠ []) →
      transcriptRowsFor video_uri ts =
        some (ts.map fun t =>
          mkTranscriptRow video_uri (t.alternatives.headD dfltAlternative))
  | [], _ => rfl
  | t :: rest, h => by
    have ht := h t (List.mem_cons_self t rest)
    have ih := transcriptRowsFor_eq video_uri rest
      (fun x hx => h x (List.mem_cons_of_mem t hx))
    cases halts : t.alternatives with
    | nil => exact absurd halts ht
    | cons alt tl => simp [transcriptRowsFor, halts, ih]

/-- Every prepared transcript row is built by `mkTranscriptRow` from some
alternative. -/
theorem transcriptRowsFor_shape (video_uri : String) :
    ∀ (ts : List SpeechTranscription) (rows : List TranscriptRow),
      transcriptRowsFor video_uri ts = some rows →
      ∀ row ∈ rows, ∃ alt : SpeechAlternative, row = mkTranscriptRow video_uri alt
  | [], rows, h => by
    simp only [transcriptRowsFor, Option.some.injEq] at h
    subst h; simp
  | t :: rest, rows, h => by
    cases halts : t.alternatives with
    | nil => rw [transcriptRowsFor, halts] at h; exact absurd h (by simp)
    | cons alt tl =>
      rw [transcriptRowsFor, halts] at h
      cases hrec : transcriptRowsFor video_uri rest with
      | none => rw [hrec] at h; exact absurd h (by simp)
      | some rows' =>
        rw [hrec] at h
        simp only [Option.some.injEq] at h
        subst h
        intro row hrow
        rcases List.mem_cons.mp hrow with hhd | htl
        · exact ⟨alt, hhd⟩
        · exact transcriptRowsFor_shape video_uri rest rows' hrec row htl

/-- Mapping under `getLastD`: `getLastD` commutes with `map` when the defaults correspond. -/
theorem map_getLastD {α β : Type} (f : α → β) :
    ∀ (l : List α) (d : α), (l.map f).getLastD (f d) = f (l.getLastD d)
  | [], _ => rfl
  | a :: l, d => by
    rw [List.map_cons, List.getLastD_cons, List.getLastD_cons]
    exact map_getLastD f l a

/-- The spec-level reading of `file_name`: the part of the URI after its
last slash. -/
theorem file_name_of_eq (video_uri pre suf : String)
    (huri : video_uri = pre ++ "/" ++ suf) (hsuf : '/' ∉ suf.data) :
    file_name_of video_uri = suf := by
  have hdata : video_uri.data = pre.data ++ '/' :: suf.data := by
    rw [huri]; simp [String.data_append]
  unfold file_name_of pySplit
  rw [hdata,
    show ("" : String) = String.mk [] from rfl,
    map_getLastD String.mk (splitChar '/' (pre.data ++ '/' :: suf.data)) [],
    splitChar_getLastD '/' pre.data suf.data hsuf []]

/-! ### Claims C3, C10, C5 -/

/-- C3: the projection yields exactly one label row per (label annotation,
segment) pair — so `sum of segment counts` rows in total, each carrying
that segment's confidence, start and end times — and exactly one
transcript row per transcription, built from its first alternative. -/
theorem c3_projection (video_uri : String)
    (results_labels results_transcript : VideoAnnotationResults)
    (halt : ∀ t ∈ results_transcript.speech_transcriptions, t.alternatives ≠ []) :
    (labelRowsFor video_uri results_labels).length =
      (results_labels.segment_label_annotations.map fun a => a.segments.length).sum ∧
    (∀ row ∈ labelRowsFor video_uri results_labels,
      ∃ a ∈ results_labels.segment_label_annotations, ∃ s ∈ a.segments,
        row = mkLabelRow video_uri a s ∧ row.confidence = s.confidence ∧
        row.start_time = s.segment.startTime ∧ row.end_time = s.segment.endTime) ∧
    transcriptRowsFor video_uri results_transcript.speech_transcriptions =
      some (results_transcript.speech_transcriptions.map fun t =>
        mkTranscriptRow video_uri (t.alternatives.headD dfltAlternative)) ∧
    (∀ rows, transcriptRowsFor video_uri results_transcript.speech_transcriptions =
        some rows → rows.length = results_transcript.speech_transcriptions.length) := by
  have heq := transcriptRowsFor_eq video_uri results_transcript.speech_transcriptions halt
  refine ⟨?_, ?_, heq, ?_⟩
  · simp [labelRowsFor, List.length_flatMap, Function.comp_def]
  · intro row hrow
    simp only [labelRowsFor, List.mem_flatMap, List.mem_map] at hrow
    obtain ⟨a, ha, s, hs, rfl⟩ := hrow
    exact ⟨a, ha, s, hs, rfl, rfl, rfl, rfl⟩
  · intro rows hrows
    rw [heq] at hrows
    simp only [Option.some.injEq] at hrows
    subst hrows
    simp

/-- Witness for C3: one label with two segments plus one label with one
segment give three label rows; two transcriptions give two rows. -/
theorem c3_projection_witness :
    (∀ t ∈ (⟨[], [⟨[⟨"hi", 9/10⟩]⟩, ⟨[⟨"yo", 1/2⟩]⟩]⟩ :
        VideoAnnotationResults).speech_transcriptions, t.alternatives ≠ []) ∧
    (labelRowsFor "gs://b/clip.mp4"
      ⟨[⟨⟨"Cat"⟩, [], [⟨⟨0, 5⟩, 9/10⟩, ⟨⟨6, 7⟩, 1/2⟩]⟩, ⟨⟨"Dog"⟩, [], [⟨⟨1, 2⟩, 1/4⟩]⟩],
        []⟩).length =
      ((⟨[⟨⟨"Cat"⟩, [], [⟨⟨0, 5⟩, 9/10⟩, ⟨⟨6, 7⟩, 1/2⟩]⟩, ⟨⟨"Dog"⟩, [], [⟨⟨1, 2⟩, 1/4⟩]⟩],
        []⟩ : VideoAnnotationResults).segment_label_annotations.map
          fun a => a.segments.length).sum := by
  have h := c3_projection "gs://b/clip.mp4"
    ⟨[⟨⟨"Cat"⟩, [], [⟨⟨0, 5⟩, 9/10⟩, ⟨⟨6, 7⟩, 1/2⟩]⟩, ⟨⟨"Dog"⟩, [], [⟨⟨1, 2⟩, 1/4⟩]⟩], []⟩
    ⟨[], [⟨[⟨"hi", 9/10⟩]⟩, ⟨[⟨"yo", 1/2⟩]⟩]⟩ (by decide)
  exact ⟨by decide, h.1⟩

/-- C10: every inserted label row and transcript row carries
`file_name = ` the part of the video URI after its last slash, and every
label row's `file_uri` is the full video URI. -/
theorem c10_row_file_name (video_uri pre suf : String)
    (huri : video_uri = pre ++ "/" ++ suf) (hsuf : '/' ∉ suf.data)
    (results_labels : VideoAnnotationResults) (ts : List SpeechTranscription) :
    file_name_of video_uri = suf ∧
    (∀ row ∈ labelRowsFor video_uri results_labels,
      row.file_name = suf ∧ row.file_uri = video_uri) ∧
    (∀ rows, transcriptRowsFor video_uri ts = some rows →
      ∀ row ∈ rows, row.file_name = suf) := by
  have hfn := file_name_of_eq video_uri pre suf huri hsuf
  refine ⟨hfn, ?_, ?_⟩
  · intro row hrow
    simp only [labelRowsFor, List.mem_flatMap, List.mem_map] at hrow
    obtain ⟨a, _, s, _, rfl⟩ := hrow
    exact ⟨hfn, rfl⟩
  · intro rows hrows row hrow
    obtain ⟨alt, rfl⟩ := transcriptRowsFor_shape video_uri ts rows hrows row hrow
    exact hfn

/-- Witness for C10 at `gs://b/clip.mp4`: all rows carry
`file_name = "clip.mp4"`. -/
theorem c10_row_file_name_witness :
    "gs://b/clip.mp4" = "gs://b" ++ "/" ++ "clip.mp4" ∧
    file_name_of "gs://b/clip.mp4" = "clip.mp4" ∧
    (∀ row ∈ labelRowsFor "gs://b/clip.mp4"
        ⟨[⟨⟨"Cat"⟩, [], [⟨⟨0, 5⟩, 9/10⟩]⟩], []⟩,
      row.file_name = "clip.mp4" ∧ row.file_uri = "gs://b/clip.mp4") := by
  have h := c10_row_file_name "gs://b/clip.mp4" "gs://b" "clip.mp4" rfl (by decide)
    ⟨[⟨⟨"Cat"⟩, [], [⟨⟨0, 5⟩, 9/10⟩]⟩], []⟩ []
  exact ⟨rfl, h.1, h.2.1⟩

/-- C5: a transcription is emitted exactly when its first alternative's
confidence is at least the threshold, with the trimmed first-alternative
transcript; confidence exactly 0.8 is kept, 0.75 is suppressed. -/
theorem c5_speech_threshold (results : VideoAnnotationResults) (min_confidence : ℚ)
    (halt : ∀ t ∈ results.speech_transcriptions, t.alternatives ≠ []) :
    print_video_speech results min_confidence =
      ((results.speech_transcriptions.filter fun t =>
          min_confidence ≤ (t.alternatives.headD dfltAlternative).confidence).map
        fun t => ((t.alternatives.headD dfltAlternative).confidence,
          pyStrip (t.alternatives.headD dfltAlternative).transcript)) ∧
    (∀ line ∈ print_video_speech results min_confidence, min_confidence ≤ line.1) ∧
    print_video_speech ⟨[], [⟨[⟨" hello ", 8/10⟩]⟩]⟩ (8/10) = [(8/10, "hello")] ∧
    print_video_speech ⟨[], [⟨[⟨"hello", 3/4⟩]⟩]⟩ (8/10) = [] := by
  have hs : pyStrip " hello " = "hello" := by decide
  have hk1 : keep_transcription (8/10) ⟨[⟨" hello ", 8/10⟩]⟩ = true := by
    simp [keep_transcription, dfltAlternative]
  have hk2 : keep_transcription (8/10) ⟨[⟨"hello", 3/4⟩]⟩ = false := by
    simp only [keep_transcription, List.headD_cons, decide_eq_false_iff_not]
    norm_num
  refine ⟨rfl, ?_, ?_, ?_⟩
  · intro line hline
    simp only [print_video_speech, List.mem_map, List.mem_filter] at hline
    obtain ⟨t, ⟨_, hkeep⟩, rfl⟩ := hline
    simpa [keep_transcription] using hkeep
  · simp [print_video_speech, hk1, hs]
  · simp [print_video_speech, hk2]

/-- Witness for C5: a mixed list keeps exactly the boundary-and-above
transcriptions. -/
theorem c5_speech_threshold_witness :
    (∀ t ∈ (⟨[], [⟨[⟨" hello ", 8/10⟩]⟩, ⟨[⟨"quiet", 3/4⟩]⟩]⟩ :
        VideoAnnotationResults).speech_transcriptions, t.alternatives ≠ []) ∧
    print_video_speech ⟨[], [⟨[⟨" hello ", 8/10⟩]⟩, ⟨[⟨"quiet", 3/4⟩]⟩]⟩ (8/10) =
      [(8/10, "hello")] := by
  have h := c5_speech_threshold ⟨[], [⟨[⟨" hello ", 8/10⟩]⟩, ⟨[⟨"quiet", 3/4⟩]⟩]⟩
    (8/10) (by simp)
  have hs : pyStrip " hello " = "hello" := by decide
  have h34 : ¬ ((8 : ℚ)/10 ≤ 3/4) := by norm_num
  refine ⟨by simp, h.1.trans ?_⟩
  simp [dfltAlternative, h34, hs]

/-! ### Claim C4: the label report's ordering -/

/-- Annotations whose first-segment confidence equals `c`. -/
def sameKey (c : ℚ) (x : LabelAnn) : Bool := firstSegConf x = c

/-- Inserting `a` into `l` in descending key order places it before exactly
the strictly smaller keys, so key-`c` elements keep their relative order. -/
theorem filter_orderedInsert (c : ℚ) (a : LabelAnn) :
    ∀ l : List LabelAnn,
      (List.orderedInsert labelGE a l).filter (sameKey c) =
        if firstSegConf a = c then a :: l.filter (sameKey c)
        else l.filter (sameKey c)
  | [] => by
    by_cases hac : firstSegConf a = c <;>
      simp [List.orderedInsert, sameKey, hac]
  | b :: l => by
    have ih := filter_orderedInsert c a l
    by_cases hab : labelGE a b
    · by_cases hac : firstSegConf a = c <;>
        simp [List.orderedInsert, hab, sameKey, hac, List.filter_cons]
    · have hlt : firstSegConf a < firstSegConf b := lt_of_not_le hab
      by_cases hac : firstSegConf a = c
      · have hbc : ¬ (firstSegConf b = c) := by
          intro hbc
          rw [hac] at hlt
          rw [hbc] at hlt
          exact lt_irrefl c hlt
        simp [List.orderedInsert, hab, List.filter_cons, sameKey, hbc, ih, hac]
      · by_cases hbc : firstSegConf b = c <;>
          simp [List.orderedInsert, hab, List.filter_cons, sameKey, hbc, ih, hac]

/-- Stability of the label sort: for every key value, the key's elements
appear in the sorted output in their input order. -/
theorem filter_insertionSort (c : ℚ) :
    ∀ l : List LabelAnn,
      (l.insertionSort labelGE).filter (sameKey c) = l.filter (sameKey c)
  | [] => rfl
  | a :: l => by
    have ih := filter_insertionSort c l
    rw [List.insertionSort, filter_orderedInsert c a, ih, List.filter_cons]
    by_cases hac : firstSegConf a = c <;> simp [sameKey, hac]

/-- C4: the label report lists annotations in descending order of the first
segment's confidence; equal-confidence annotations keep their input order
(the sort is a permutation and stable), and each annotation's segments are
emitted in their original order, one line per segment. -/
theorem c4_label_report (anns : List LabelAnn)
    (hseg : ∀ a ∈ anns, a.segments ≠ []) :
    List.Perm (sorted_by_first_segment_confidence anns) anns ∧
    List.Pairwise labelGE (sorted_by_first_segment_confidence anns) ∧
    (∀ c : ℚ, (sorted_by_first_segment_confidence anns).filter (sameKey c) =
      anns.filter (sameKey c)) ∧
    (∀ results : VideoAnnotationResults,
      results.segment_label_annotations = anns →
      print_video_labels results =
        (sorted_by_first_segment_confidence anns).flatMap
          fun label => label.segments.map (labelLineOf label)) := by
  refine ⟨List.perm_insertionSort labelGE anns, ?_,
    fun c => filter_insertionSort c anns, ?_⟩
  · simpa [List.Sorted] using List.sorted_insertionSort labelGE anns
  · intro results h
    simp [print_video_labels, sorted_by_first_segment_confidence, h]

/-- Witness for C4: three annotations, the first two tied on first-segment
confidence 0 and a third at confidence 1; the sort puts the confident one
first and keeps the tied pair in input order. -/
theorem c4_label_report_witness :
    (∀ a ∈ [(⟨⟨"A"⟩, [], [⟨⟨0, 1⟩, 0⟩]⟩ : LabelAnn),
        ⟨⟨"B"⟩, [], [⟨⟨2, 3⟩, 0⟩]⟩, ⟨⟨"C"⟩, [], [⟨⟨4, 5⟩, 1⟩]⟩],
      a.segments ≠ []) ∧
    List.Perm
      (sorted_by_first_segment_confidence
        [⟨⟨"A"⟩, [], [⟨⟨0, 1⟩, 0⟩]⟩, ⟨⟨"B"⟩, [], [⟨⟨2, 3⟩, 0⟩]⟩,
          ⟨⟨"C"⟩, [], [⟨⟨4, 5⟩, 1⟩]⟩])
      [⟨⟨"A"⟩, [], [⟨⟨0, 1⟩, 0⟩]⟩, ⟨⟨"B"⟩, [], [⟨⟨2, 3⟩, 0⟩]⟩,
        ⟨⟨"C"⟩, [], [⟨⟨4, 5⟩, 1⟩]⟩] ∧
    sorted_by_first_segment_confidence
        [⟨⟨"A"⟩, [], [⟨⟨0, 1⟩, 0⟩]⟩, ⟨⟨"B"⟩, [], [⟨⟨2, 3⟩, 0⟩]⟩,
          ⟨⟨"C"⟩, [], [⟨⟨4, 5⟩, 1⟩]⟩] =
      [⟨⟨"C"⟩, [], [⟨⟨4, 5⟩, 1⟩]⟩, ⟨⟨"A"⟩, [], [⟨⟨0, 1⟩, 0⟩]⟩,
        ⟨⟨"B"⟩, [], [⟨⟨2, 3⟩, 0⟩]⟩] := by
  have h := c4_label_report
    [⟨⟨"A"⟩, [], [⟨⟨0, 1⟩, 0⟩]⟩, ⟨⟨"B"⟩, [], [⟨⟨2, 3⟩, 0⟩]⟩,
      ⟨⟨"C"⟩, [], [⟨⟨4, 5⟩, 1⟩]⟩] (by simp)
  refine ⟨by simp, h.1, ?_⟩
  norm_num [sorted_by_first_segment_confidence, List.insertionSort,
    List.orderedInsert, labelGE, firstSegConf, dfltSegment]

/-! ### Claims C6, C7: the schema provisioner -/

/-- C6: for each table, exactly the distinguished "not found" fetch outcome
triggers a create; a successful fetch performs no create and logs "already
exists"; any other fetch error propagates out of the provisioner uncaught
(and, for the labels table, prevents even the transcript table's fetch). -/
theorem c6_provisioner_cases (get : Table → GetResult) :
    (∀ t : Table, Ev.createCall t ∈ (create_bigquery_tables get).1 →
      get t = GetResult.notFound) ∧
    (get Table.labels = GetResult.found →
      Ev.createCall Table.labels ∉ (create_bigquery_tables get).1 ∧
      Ev.logExists Table.labels ∈ (create_bigquery_tables get).1) ∧
    (get Table.labels = GetResult.notFound →
      Ev.createCall Table.labels ∈ (create_bigquery_tables get).1) ∧
    (∀ e, get Table.labels = GetResult.otherError e →
      (create_bigquery_tables get).2 = Except.error e ∧
      (create_bigquery_tables get).1 = [Ev.getCall Table.labels]) ∧
    (get Table.labels = GetResult.found ∨ get Table.labels = GetResult.notFound →
      (get Table.transcript = GetResult.found →
        Ev.createCall Table.transcript ∉ (create_bigquery_tables get).1 ∧
        Ev.logExists Table.transcript ∈ (create_bigquery_tables get).1) ∧
      (get Table.transcript = GetResult.notFound →
        Ev.createCall Table.transcript ∈ (create_bigquery_tables get).1) ∧
      (∀ e, get Table.transcript = GetResult.otherError e →
        (create_bigquery_tables get).2 = Except.error e)) := by
  cases h1 : get Table.labels <;> cases h2 : get Table.transcript <;>
    refine ⟨fun t => ?_, ?_, ?_, ?_, ?_⟩ <;>
    first
      | (intro ht; cases t <;>
          simp_all [create_bigquery_tables, provisionTable])
      | simp_all [create_bigquery_tables, provisionTable]

/-- Witness for C6: a store in which the labels table exists and the
transcript table is missing creates exactly the transcript table. -/
theorem c6_provisioner_cases_witness :
    ((fun t => match t with
        | Table.labels => GetResult.found
        | Table.transcript => GetResult.notFound) Table.labels = GetResult.found) ∧
    Ev.createCall Table.labels ∉
      (create_bigquery_tables (fun t => match t with
        | Table.labels => GetResult.found
        | Table.transcript => GetResult.notFound)).1 ∧
    Ev.createCall Table.transcript ∈
      (create_bigquery_tables (fun t => match t with
        | Table.labels => GetResult.found
        | Table.transcript => GetResult.notFound)).1 := by
  have h := c6_provisioner_cases (fun t => match t with
    | Table.labels => GetResult.found
    | Table.transcript => GetResult.notFound)
  exact ⟨rfl, (h.2.1 rfl).1, (h.2.2.2.2 (Or.inl rfl)).2.1 rfl⟩

/-- A store state for C7: which tables currently exist. -/
def tablesAbsent : Table → Bool := fun _ => false

/-- The fetch behaviour induced by a store state: `found` exactly for
existing tables, the "not found" outcome otherwise. -/
def getOfState (ex : Table → Bool) : Table → GetResult :=
  fun t => if ex t then GetResult.found else GetResult.notFound

/-- The store state after a trace: a table exists once created. -/
def afterCreates (ex : Table → Bool) (tr : List Ev) : Table → Bool :=
  fun t => ex t || tr.contains (Ev.createCall t)

/-- C7: starting from a store without the tables, the first provisioner
call creates each table exactly once; the second call, seeing the tables
created by the first, creates nothing and observes "already exists" for
both tables; both calls succeed. -/
theorem c7_provisioning_idempotent :
    (create_bigquery_tables (getOfState tablesAbsent)).1.count
        (Ev.createCall Table.labels) = 1 ∧
    (create_bigquery_tables (getOfState tablesAbsent)).1.count
        (Ev.createCall Table.transcript) = 1 ∧
    (create_bigquery_tables (getOfState (afterCreates tablesAbsent
        (create_bigquery_tables (getOfState tablesAbsent)).1))).1.count
        (Ev.createCall Table.labels) = 0 ∧
    (create_bigquery_tables (getOfState (afterCreates tablesAbsent
        (create_bigquery_tables (getOfState tablesAbsent)).1))).1.count
        (Ev.createCall Table.transcript) = 0 ∧
    Ev.logExists Table.labels ∈
      (create_bigquery_tables (getOfState (afterCreates tablesAbsent
        (create_bigquery_tables (getOfState tablesAbsent)).1))).1 ∧
    Ev.logExists Table.transcript ∈
      (create_bigquery_tables (getOfState (afterCreates tablesAbsent
        (create_bigquery_tables (getOfState tablesAbsent)).1))).1 ∧
    (create_bigquery_tables (getOfState tablesAbsent)).2 = Except.ok () ∧
    (create_bigquery_tables (getOfState (afterCreates tablesAbsent
        (create_bigquery_tables (getOfState tablesAbsent)).1))).2 =
      Except.ok () := by
  refine ⟨rfl, rfl, rfl, rfl, ?_, ?_, rfl, rfl⟩ <;>
    simp [create_bigquery_tables, provisionTable, getOfState, afterCreates,
      tablesAbsent]

/-! ### Claim C2: independence of the two appends -/

/-- Recognises a transcript-table append call in a trace. -/
def isTranscriptAppend : Ev → Bool
  | Ev.appendCall (Rows.transcriptRows _) => true
  | _ => false

/-- C2 is false as stated: when the label-rows append raises a store-level
exception, control jumps to the shared `except` handler and the
transcript-rows append is never attempted.  Concretely: label result with
one Cat segment, one transcription, and a store whose label append raises
`connection reset` — the trace is just the label append and the error log,
with no transcript append call. -/
theorem c2_counterexample :
    store_results_in_bigquery
        (fun rs => match rs with
          | Rows.labelRows _ => Except.error "connection reset"
          | Rows.transcriptRows _ => Except.ok [])
        "gs://b/clip.mp4"
        ⟨[⟨⟨"Cat"⟩, [], [⟨⟨0, 5⟩, 9/10⟩]⟩], []⟩
        ⟨[], [⟨[⟨"hi", 9/10⟩]⟩]⟩ =
      some [Ev.appendCall (Rows.labelRows
          [⟨"clip.mp4", "Cat", 9/10, 0, 5, "gs://b/clip.mp4"⟩]),
        Ev.logStoreError "connection reset"] ∧
    (store_results_in_bigquery
        (fun rs => match rs with
          | Rows.labelRows _ => Except.error "connection reset"
          | Rows.transcriptRows _ => Except.ok [])
        "gs://b/clip.mp4"
        ⟨[⟨⟨"Cat"⟩, [], [⟨⟨0, 5⟩, 9/10⟩]⟩], []⟩
        ⟨[], [⟨[⟨"hi", 9/10⟩]⟩]⟩).map
      (fun tr => tr.all fun e => !(isTranscriptAppend e)) = some true := by
  exact ⟨rfl, rfl⟩

/-- C2 as amended: a row-level failure (a returned non-empty error list) in
the label append does not block the transcript append, and each append's
outcome is logged independently; but the two appends share one exception
handler, so a store-level exception raised by the label append is logged
and aborts the function with the transcript append never attempted (a
store-level exception in the transcript append leaves the already-issued
label append and its log intact). -/
theorem c2_append_independence (insert : Rows → Except String (List String))
    (video_uri : String) (results_labels results_transcript : VideoAnnotationResults)
    (rowsT : List TranscriptRow)
    (hT : transcriptRowsFor video_uri results_transcript.speech_transcriptions =
      some rowsT) :
    (∀ errsL, insert (Rows.labelRows (labelRowsFor video_uri results_labels)) =
        Except.ok errsL →
      ∃ tr, store_results_in_bigquery insert video_uri results_labels
          results_transcript = some tr ∧
        appendLogEv Table.labels errsL ∈ tr ∧
        Ev.appendCall (Rows.transcriptRows rowsT) ∈ tr ∧
        (∀ errsT, insert (Rows.transcriptRows rowsT) = Except.ok errsT →
          appendLogEv Table.transcript errsT ∈ tr) ∧
        (∀ e, insert (Rows.transcriptRows rowsT) = Except.error e →
          Ev.logStoreError e ∈ tr)) ∧
    (∀ e, insert (Rows.labelRows (labelRowsFor video_uri results_labels)) =
        Except.error e →
      store_results_in_bigquery insert video_uri results_labels
          results_transcript =
        some [Ev.appendCall (Rows.labelRows (labelRowsFor video_uri results_labels)),
          Ev.logStoreError e]) := by
  constructor
  · intro errsL hL
    cases hT2 : insert (Rows.transcriptRows rowsT) with
    | error e =>
      have hstore : store_results_in_bigquery insert video_uri results_labels
          results_transcript =
          some [Ev.appendCall (Rows.labelRows (labelRowsFor video_uri results_labels)),
            appendLogEv Table.labels errsL,
            Ev.appendCall (Rows.transcriptRows rowsT), Ev.logStoreError e] := by
        simp [store_results_in_bigquery, hT, hL, hT2]
      refine ⟨_, hstore, by simp, by simp, ?_, ?_⟩
      · intro errsT hT3; exact absurd hT3 (by simp)
      · intro e' hT3
        simp only [Except.error.injEq] at hT3
        subst hT3; simp
    | ok errsT =>
      have hstore : store_results_in_bigquery insert video_uri results_labels
          results_transcript =
          some [Ev.appendCall (Rows.labelRows (labelRowsFor video_uri results_labels)),
            appendLogEv Table.labels errsL,
            Ev.appendCall (Rows.transcriptRows rowsT),
            appendLogEv Table.transcript errsT] := by
        simp [store_results_in_bigquery, hT, hL, hT2]
      refine ⟨_, hstore, by simp, by simp, ?_, ?_⟩
      · intro errsT' hT3
        simp only [Except.ok.injEq] at hT3
        subst hT3; simp
      · intro e hT3; exact absurd hT3 (by simp)
  · intro e hL
    simp [store_results_in_bigquery, hT, hL]

/-- Witness for the amended C2: a store accepting all rows issues both
appends and logs both successes. -/
theorem c2_append_independence_witness :
    transcriptRowsFor "gs://b/clip.mp4"
      [⟨[⟨"hi", 9/10⟩]⟩] = some [⟨"clip.mp4", "hi", 9/10⟩] ∧
    ∃ tr, store_results_in_bigquery (fun _ => Except.ok []) "gs://b/clip.mp4"
        ⟨[⟨⟨"Cat"⟩, [], [⟨⟨0, 5⟩, 9/10⟩]⟩], []⟩ ⟨[], [⟨[⟨"hi", 9/10⟩]⟩]⟩ =
        some tr ∧
      appendLogEv Table.labels [] ∈ tr ∧
      Ev.appendCall (Rows.transcriptRows [⟨"clip.mp4", "hi", 9/10⟩]) ∈ tr := by
  have h := c2_append_independence (fun _ => Except.ok []) "gs://b/clip.mp4"
    ⟨[⟨⟨"Cat"⟩, [], [⟨⟨0, 5⟩, 9/10⟩]⟩], []⟩ ⟨[], [⟨[⟨"hi", 9/10⟩]⟩]⟩
    [⟨"clip.mp4", "hi", 9/10⟩] rfl
  obtain ⟨tr, h1, h2, h3, _, _⟩ := h.1 [] rfl
  exact ⟨rfl, tr, h1, h2, h3⟩

/-! ### Claims C8, C9: the orchestrator's failure handling -/

/-- Recognises a write to the analytic store (create or append). -/
def isStoreWrite : Ev → Bool
  | Ev.createCall _ => true
  | Ev.appendCall _ => true
  | _ => false

/-- Recognises report output (label or speech report lines). -/
def isReport : Ev → Bool
  | Ev.labelsReport _ => true
  | Ev.speechReport _ => true
  | _ => false

/-- When both fetches yield found-or-not-found, provisioning runs both
blocks and succeeds. -/
theorem create_tables_ok (get : Table → GetResult)
    (hgl : get Table.labels = GetResult.found ∨
      get Table.labels = GetResult.notFound)
    (hgt : get Table.transcript = GetResult.found ∨
      get Table.transcript = GetResult.notFound) :
    create_bigquery_tables get =
      ((provisionTable get Table.labels).1 ++ (provisionTable get Table.transcript).1,
        Except.ok ()) := by
  rcases hgl with h | h <;> rcases hgt with h' | h' <;>
    simp [create_bigquery_tables, provisionTable, h, h']

/-- When every transcription has an alternative, the projector returns a
trace (it never raises), whatever the store does. -/
theorem store_results_isSome (insert : Rows → Except String (List String))
    (video_uri : String) (results_labels results_transcript : VideoAnnotationResults)
    (rowsT : List TranscriptRow)
    (hT : transcriptRowsFor video_uri results_transcript.speech_transcriptions =
      some rowsT) :
    (store_results_in_bigquery insert video_uri results_labels
      results_transcript).isSome = true := by
  simp [store_results_in_bigquery, hT]

/-- C8: when the annotation call fails, the orchestrator stops with exactly
the pre-annotation log lines — no report, no table provisioning, no row
append, no store write of any kind — and the failure propagates to the
caller. -/
theorem c8_annotation_abort (env : Env) (event : StorageEvent) (e : String)
    (h : env.annotate ⟨input_uri event, output_uri event⟩ = Except.error e) :
    process_video env event =
      ([Ev.printEvent, Ev.printProcessing (input_uri event),
        Ev.annotateCall ⟨input_uri event, output_uri event⟩],
        Except.error (PyErr.annotationError e)) ∧
    (∀ ev ∈ (process_video env event).1,
      isStoreWrite ev = false ∧ isReport ev = false) := by
  have h1 : process_video env event =
      ([Ev.printEvent, Ev.printProcessing (input_uri event),
        Ev.annotateCall ⟨input_uri event, output_uri event⟩],
        Except.error (PyErr.annotationError e)) := by
    simp [process_video, analyze_video, h]
  refine ⟨h1, ?_⟩
  rw [h1]
  intro ev hev
  simp only [List.mem_cons, List.not_mem_nil, or_false] at hev
  rcases hev with rfl | rfl | rfl <;> exact ⟨rfl, rfl⟩

/-- Witness for C8: an environment whose annotation call raises `quota`. -/
theorem c8_annotation_abort_witness :
    (Env.annotate ⟨fun _ => Except.error "quota", fun _ => GetResult.found,
        fun _ => Except.ok []⟩)
      ⟨input_uri ⟨"b", "clip.mp4"⟩, output_uri ⟨"b", "clip.mp4"⟩⟩ =
      Except.error "quota" ∧
    process_video ⟨fun _ => Except.error "quota", fun _ => GetResult.found,
        fun _ => Except.ok []⟩ ⟨"b", "clip.mp4"⟩ =
      ([Ev.printEvent, Ev.printProcessing (input_uri ⟨"b", "clip.mp4"⟩),
        Ev.annotateCall ⟨input_uri ⟨"b", "clip.mp4"⟩, output_uri ⟨"b", "clip.mp4"⟩⟩],
        Except.error (PyErr.annotationError "quota")) := by
  have h := c8_annotation_abort ⟨fun _ => Except.error "quota",
    fun _ => GetResult.found, fun _ => Except.ok []⟩ ⟨"b", "clip.mp4"⟩ "quota" rfl
  exact ⟨rfl, h.1⟩

/-- C9: a store-level `GoogleCloudError` raised during the row-append step
is caught and logged inside the projector and never propagates: the
orchestrator still returns normally even when the append failed entirely. -/
theorem c9_store_error_swallowed (env : Env) (event : StorageEvent)
    (r0 r1 : VideoAnnotationResults) (rest : List VideoAnnotationResults)
    (hann : env.annotate ⟨input_uri event, output_uri event⟩ =
      Except.ok (r0 :: r1 :: rest))
    (hgl : env.getTable Table.labels = GetResult.found ∨
      env.getTable Table.labels = GetResult.notFound)
    (hgt : env.getTable Table.transcript = GetResult.found ∨
      env.getTable Table.transcript = GetResult.notFound)
    (halt : ∀ t ∈ r1.speech_transcriptions, t.alternatives ≠ []) :
    (process_video env event).2 = Except.ok () ∧
    (∀ e, env.insert (Rows.labelRows (labelRowsFor (input_uri event) r0)) =
        Except.error e →
      Ev.logStoreError e ∈ (process_video env event).1) := by
  have hT := transcriptRowsFor_eq (input_uri event) r1.speech_transcriptions halt
  have hc := create_tables_ok env.getTable hgl hgt
  obtain ⟨tr, htr⟩ := Option.isSome_iff_exists.mp
    (store_results_isSome env.insert (input_uri event) r0 r1 _ hT)
  constructor
  · simp [process_video, analyze_video, hann, hc, htr]
  · intro e he
    have hstore : store_results_in_bigquery env.insert (input_uri event) r0 r1 =
        some [Ev.appendCall (Rows.labelRows (labelRowsFor (input_uri event) r0)),
          Ev.logStoreError e] := by
      simp [store_results_in_bigquery, hT, he]
    simp [process_video, analyze_video, hann, hc, hstore]

/-- Witness for C9: an environment whose append always raises `down` still
lets the handler finish normally, with the error logged. -/
theorem c9_store_error_swallowed_witness :
    (process_video ⟨fun _ => Except.ok [⟨[], []⟩, ⟨[], []⟩],
        fun _ => GetResult.found, fun _ => Except.error "down"⟩
      ⟨"b", "clip.mp4"⟩).2 = Except.ok () ∧
    Ev.logStoreError "down" ∈
      (process_video ⟨fun _ => Except.ok [⟨[], []⟩, ⟨[], []⟩],
          fun _ => GetResult.found, fun _ => Except.error "down"⟩
        ⟨"b", "clip.mp4"⟩).1 := by
  have h := c9_store_error_swallowed
    ⟨fun _ => Except.ok [⟨[], []⟩, ⟨[], []⟩], fun _ => GetResult.found,
      fun _ => Except.error "down"⟩
    ⟨"b", "clip.mp4"⟩ ⟨[], []⟩ ⟨[], []⟩ [] rfl (Or.inl rfl) (Or.inl rfl)
    (by simp)
  exact ⟨h.1, h.2 "down" rfl⟩
